import Mathlib

/-!
Verification of the data-masking engine of the hermes-trace repository
(`src/utils/masking.ts`, class `DataMasker`), against its natural-language
specification.  The engine receives arbitrary JavaScript values and returns
values of the same shape with sensitive leaves replaced.  The embedding below
translates the TypeScript source into Lean: JavaScript values become the
inductive type `JsValue`, the class state becomes the structure `DataMasker`,
and each method becomes a Lean function of the same name.  The four string
patterns (email, phone, credit card, SSN) are hand-compiled, literally
construct by construct, into a small backtracking regular-expression engine
whose match order (leftmost match, ordered alternatives, greedy quantifiers)
is that of ECMAScript regular expressions.
-/

namespace HermesTrace

/-- JavaScript runtime values as seen by the masking engine.  `vDate` stands
for a `Date` object (for which `typeof` answers `"object"` and
`Object.entries` answers the empty list, since a `Date` keeps its time value
in an internal slot and has no own enumerable properties).  Numbers are
modelled as integers; the engine never computes with them. -/
inductive JsValue where
  | vNull
  | vUndefined
  | vBool (b : Bool)
  | vNum (n : Int)
  | vDate (time : Int)
  | vStr (s : String)
  | vArr (elems : List JsValue)
  | vObj (fields : List (String × JsValue))

/-! ## Character classes of the four patterns -/

/-- ECMAScript `\d` (no `u` flag): the ASCII digits. -/
def isDigitChar (c : Char) : Bool := '0' ≤ c && c ≤ '9'

/-- ASCII letters `A`-`Z` and `a`-`z`. -/
def isAsciiAlpha (c : Char) : Bool := ('A' ≤ c && c ≤ 'Z') || ('a' ≤ c && c ≤ 'z')

/-- ECMAScript word character for `\b`: `[A-Za-z0-9_]`. -/
def isWordChar (c : Char) : Bool := isAsciiAlpha c || isDigitChar c || c = '_'

/-- ECMAScript `\s`: tab, line feed, vertical tab, form feed, carriage return,
space, and the Unicode space separators listed by the standard. -/
def isJsSpace (c : Char) : Bool :=
  c = ' ' || c = '\t' || c = '\n' || c = '\x0b' || c = '\x0c' || c = '\r' ||
  c = '\u00a0' || c = '\u1680' || ('\u2000' ≤ c && c ≤ '\u200a') ||
  c = '\u2028' || c = '\u2029' || c = '\u202f' || c = '\u205f' ||
  c = '\u3000' || c = '\ufeff'

/-- ECMAScript line terminators, the characters a `.` does not match. -/
def isLineTerminator (c : Char) : Bool :=
  c = '\n' || c = '\r' || c = '\u2028' || c = '\u2029'

/-! ## A small backtracking regular-expression engine

The four patterns of `maskString` use only: single-character classes,
concatenation, the greedy option `?`, the greedy counted repetitions `+` and
`{2,}` over a character class, and the word boundary `\b`.  `Reg` has exactly
these constructs; `matchReg` explores alternatives in the ECMAScript order
(an optional part is tried present before absent, repetitions longest first),
in continuation-passing style, so the first successful end position it
returns is the one the ECMAScript engine would produce. -/
inductive Reg where
  | eps
  | cls (p : Char → Bool)
  | seq (a b : Reg)
  | opt (a : Reg)
  | repAtLeast (lo : Nat) (p : Char → Bool)
  | wordB

/-- Does a word character stand at position `i` (false past the end)? -/
def wordAt (s : List Char) (i : Nat) : Bool :=
  match s.get? i with
  | some c => isWordChar c
  | none => false

/-- ECMAScript `\b` holds at `i` when exactly one side of the position holds a
word character. -/
def boundaryAt (s : List Char) (i : Nat) : Bool :=
  match i with
  | 0 => wordAt s 0
  | j + 1 => wordAt s j != wordAt s (j + 1)

/-- Length of the maximal run of characters of class `p` at the head. -/
def classRun (p : Char → Bool) : List Char → Nat
  | [] => 0
  | c :: cs => if p c then classRun p cs + 1 else 0

/-- Try the continuation after `d, d-1, ..., lo` characters of a repetition,
in this greedy order; counts below `lo` are not allowed. -/
def greedyRep (k : Nat → Option Nat) (i lo : Nat) : Nat → Option Nat
  | 0 => if lo = 0 then k i else none
  | d + 1 => (if lo ≤ d + 1 then k (i + (d + 1)) else none) <|> greedyRep k i lo d

/-- Backtracking matcher: try the part `r` of the pattern at position `i` of
`s` and hand each candidate end position, in ECMAScript preference order, to
the continuation `k`; the first success wins. -/
def matchReg (s : List Char) : Reg → Nat → (Nat → Option Nat) → Option Nat
  | .eps, i, k => k i
  | .cls p, i, k =>
    match s.get? i with
    | some c => if p c then k (i + 1) else none
    | none => none
  | .seq a b, i, k => matchReg s a i (fun j => matchReg s b j k)
  | .opt a, i, k => (matchReg s a i k) <|> k i
  | .repAtLeast lo p, i, k => greedyRep k i lo (classRun p (s.drop i))
  | .wordB, i, k => if boundaryAt s i then k i else none

/-- One pass of `String.prototype.replace` with a global regular expression:
scan left to right; at a match, emit the image of the matched slice under `f`
and resume after it (after an empty match, also copy one character, as the
ECMAScript scanner bumps `lastIndex`); otherwise copy one character.  `fuel`
bounds the number of scan steps; callers pass `s.length + 2`, which the scan
never exhausts since every step advances the position. -/
def replaceScan (s : List Char) (r : Reg) (f : List Char → List Char) :
    Nat → Nat → List Char
  | i, 0 => s.drop i
  | i, fuel + 1 =>
    match matchReg s r i some with
    | some e =>
      if i < e then
        f ((s.drop i).take (e - i)) ++ replaceScan s r f e fuel
      else
        f [] ++ (s.drop i).take 1 ++ replaceScan s r f (i + 1) fuel
    | none =>
      if s.length ≤ i then []
      else (s.drop i).take 1 ++ replaceScan s r f (i + 1) fuel

/-- `str.replace(regex, fn)` with a global regex and a replacement function
that receives the matched text.  (The source also uses plain replacement
strings; those are constant functions here, faithful because the replacement
token `"***"` contains no `$` substitution pattern.) -/
def jsReplace (r : Reg) (f : List Char → List Char) (s : String) : String :=
  String.mk (replaceScan s.data r f 0 (s.data.length + 2))

/-- Single literal character as a pattern. -/
def chr (c : Char) : Reg := .cls (fun d => d = c)

/-- Concatenation of a list of pattern parts. -/
def rcat : List Reg → Reg
  | [] => .eps
  | r :: rs => .seq r (rcat rs)

/-! ## The four patterns of `maskString`, hand-compiled -/

/-- Local part class `[A-Za-z0-9._%+-]` of the email pattern. -/
def emailLocalClass (c : Char) : Bool :=
  isAsciiAlpha c || isDigitChar c || c = '.' || c = '_' || c = '%' || c = '+' || c = '-'

/-- Domain class `[A-Za-z0-9.-]` of the email pattern. -/
def emailDomainClass (c : Char) : Bool :=
  isAsciiAlpha c || isDigitChar c || c = '.' || c = '-'

/-- Top-level-domain class `[A-Z|a-z]` of the email pattern (the source class
literally contains `|`). -/
def tldClass (c : Char) : Bool :=
  ('A' ≤ c && c ≤ 'Z') || c = '|' || ('a' ≤ c && c ≤ 'z')

/-- Separator class `[-.\s]` of the phone pattern. -/
def phoneSepClass (c : Char) : Bool := c = '-' || c = '.' || isJsSpace c

/-- Separator class `[-\s]` of the credit-card pattern. -/
def ccSepClass (c : Char) : Bool := c = '-' || isJsSpace c

/-- Email pattern of the source:
`\b[A-Za-z0-9._%+-]+@[A-Za-z0-9.-]+\.[A-Z|a-z]{2,}\b` -/
def emailRegex : Reg :=
  rcat [.wordB, .repAtLeast 1 emailLocalClass, chr '@',
    .repAtLeast 1 emailDomainClass, chr '.', .repAtLeast 2 tldClass, .wordB]

/-- Phone pattern of the source:
`(\+?1[-.\s]?)?(\(?\d{3}\)?[-.\s]?)?\d{3}[-.\s]?\d{4}` -/
def phoneRegex : Reg :=
  rcat [
    .opt (rcat [.opt (chr '+'), chr '1', .opt (.cls phoneSepClass)]),
    .opt (rcat [.opt (chr '('), .cls isDigitChar, .cls isDigitChar, .cls isDigitChar,
      .opt (chr ')'), .opt (.cls phoneSepClass)]),
    .cls isDigitChar, .cls isDigitChar, .cls isDigitChar,
    .opt (.cls phoneSepClass),
    .cls isDigitChar, .cls isDigitChar, .cls isDigitChar, .cls isDigitChar]

/-- One group `\d{4}[-\s]?` of the credit-card pattern. -/
def ccGroup : Reg :=
  rcat [.cls isDigitChar, .cls isDigitChar, .cls isDigitChar, .cls isDigitChar,
    .opt (.cls ccSepClass)]

/-- Credit-card pattern of the source: `\b(?:\d{4}[-\s]?){3}\d{4}\b` -/
def creditCardRegex : Reg :=
  rcat [.wordB, ccGroup, ccGroup, ccGroup,
    .cls isDigitChar, .cls isDigitChar, .cls isDigitChar, .cls isDigitChar, .wordB]

/-- SSN pattern of the source: `\b\d{3}-?\d{2}-?\d{4}\b` -/
def ssnRegex : Reg :=
  rcat [.wordB, .cls isDigitChar, .cls isDigitChar, .cls isDigitChar,
    .opt (chr '-'), .cls isDigitChar, .cls isDigitChar,
    .opt (chr '-'), .cls isDigitChar, .cls isDigitChar, .cls isDigitChar,
    .cls isDigitChar, .wordB]

/-! ## String helpers of the class -/

/-- `s.repeat(n)`: the string concatenated with itself `n` times. -/
def jsRepeat (s : String) : Nat → String
  | 0 => ""
  | n + 1 => s ++ jsRepeat s n

/-- `s.toLowerCase()`; the engine only lowercases ASCII field names and keys,
where JavaScript case mapping and `Char.toLower` agree. -/
def jsToLower (s : String) : String := String.mk (s.data.map Char.toLower)

/-- Method `preserveLengthMask` of the source: a one-character token is
repeated to the length of `value`; any other token is returned as is. -/
def preserveLengthMask (value mask : String) : String :=
  if mask.length = 1 then jsRepeat mask value.length
  else mask

/-- Method `partialMask` of the source: strings of at most 4 characters fall
back to `preserveLengthMask` or the bare token; longer strings keep their
first 2 and last 2 characters around a middle of `mask.repeat(length - 4)`
when `preserveLength` holds, otherwise of the token used once. -/
def partialMask (value mask : String) (preserveLength : Bool) : String :=
  if value.length ≤ 4 then
    if preserveLength then preserveLengthMask value mask else mask
  else
    String.mk (value.data.take 2) ++
      (if preserveLength then jsRepeat mask (value.length - 4) else mask) ++
      String.mk (value.data.drop (value.length - 2))

/-- `s.split(sep)` for a one-character separator, as in
`"a@b".split('@') = ["a", "b"]`. -/
def splitChar (sep : Char) : List Char → List (List Char)
  | [] => [[]]
  | c :: cs =>
    let rest := splitChar sep cs
    if c = sep then [] :: rest
    else
      match rest with
      | [] => [[c]]
      | p :: ps => (c :: p) :: ps

/-- Method `partialMaskEmail` of the source (`dm` is the configured default
mask): destructure `email.split('@')` into the local part and the domain; a
local part of at most 2 characters is replaced by the token entirely,
otherwise its first and last characters frame the token; the domain is kept.
(Every match of the email pattern contains exactly one `@`, so the split has
exactly two pieces there.) -/
def partialMaskEmail (dm : String) (email : String) : String :=
  let parts := splitChar '@' email.data
  let localPart := (parts.get? 0).getD []
  let domain := (parts.get? 1).getD []
  if localPart.length ≤ 2 then dm ++ "@" ++ String.mk domain
  else
    String.mk (localPart.take 1) ++ dm ++
      String.mk (localPart.drop (localPart.length - 1)) ++ "@" ++ String.mk domain

/-- Method `partialMaskCreditCard` of the source (`dm` is the configured
default mask): strip the non-digits (`card.replace(/\D/g, '')`); with fewer
than 8 digits answer the token; otherwise the token repeated once per digit
beyond the last 4, then those last 4 digits (`digits.slice(-4)`). -/
def partialMaskCreditCard (dm : String) (card : String) : String :=
  let digits := card.data.filter isDigitChar
  if digits.length < 8 then dm
  else jsRepeat dm (digits.length - 4) ++ String.mk (digits.drop (digits.length - 4))

end HermesTrace


namespace HermesTrace

/-! ## Rules and configuration -/

/-- Field matcher of a rule.  The source stores `string | RegExp`; following
the spec's modelling note, the union becomes a tagged variant, and `pattern`
carries the `test` function of the regular-expression object. -/
inductive FieldMatcher where
  | exact (name : String)
  | pattern (test : String → Bool)

/-- A masking rule.  `partialFlag` models the optional `partial` property and
`preserveLength` the optional `preserveLength` property (absent behaves as
false); `mask` is the optional `mask` property. -/
structure MaskingRule where
  field : FieldMatcher
  mask : Option String := none
  partialFlag : Bool := false
  preserveLength : Bool := false

/-- `rule.mask || this.config.defaultMask`: JavaScript `||` takes the default
both when `mask` is absent and when it is the empty string (falsy). -/
def ruleMaskOrDefault (rule : MaskingRule) (dm : String) : String :=
  match rule.mask with
  | some msk => if msk = "" then dm else msk
  | none => dm

/-- Method `applyMaskingRule` of the source: null and undefined pass through;
a string value is masked partially, length-preservingly, or replaced by the
token outright, as the rule's flags direct; every other value is replaced by
the token. -/
def applyMaskingRule (dm : String) (value : JsValue) (rule : MaskingRule) : JsValue :=
  match value with
  | .vNull => .vNull
  | .vUndefined => .vUndefined
  | .vStr s =>
    let msk := ruleMaskOrDefault rule dm
    if rule.partialFlag then .vStr (partialMask s msk rule.preserveLength)
    else if rule.preserveLength then .vStr (preserveLengthMask s msk)
    else .vStr msk
  | _ => .vStr (ruleMaskOrDefault rule dm)

/-- Method `maskValue` of the source (used for sensitive-field matches): null
and undefined pass through; a string is masked length-preservingly; numbers,
objects and anything else are replaced by the token. -/
def maskValue (value : JsValue) (msk : String) : JsValue :=
  match value with
  | .vNull => .vNull
  | .vUndefined => .vUndefined
  | .vStr s => .vStr (preserveLengthMask s msk)
  | _ => .vStr msk

/-! ## Sensitive-field patterns

The constructor compiles every sensitive-field name into
`new RegExp('^' + field + '$', 'i')`.  The field name is spliced into the
pattern unescaped, so its characters are read as regular-expression syntax.
The mini-engine below interprets the resulting anchored case-insensitive
pattern for field names made of literal characters and of `.` (which matches
any character except a line terminator) — the fragment the development's
theorems exercise; the remaining metacharacters, which no theorem below
relies on, are read as literals. -/

/-- One compiled token of a `^field$` pattern. -/
inductive FieldTok where
  | flit (c : Char)
  | fdot

/-- Compile a sensitive-field name into the token list of its pattern. -/
def compileFieldPattern (field : String) : List FieldTok :=
  field.data.map (fun c => if c = '.' then .fdot else .flit c)

/-- Does one token match one character?  Literals compare under the `i` flag
(ASCII case folding); `.` matches everything but a line terminator. -/
def fieldTokMatches : FieldTok → Char → Bool
  | .flit p, c => p.toLower == c.toLower
  | .fdot, c => !(isLineTerminator c)

/-- Anchored match of a compiled pattern against a whole key. -/
def matchToks : List FieldTok → List Char → Bool
  | [], [] => true
  | t :: ts, c :: cs => fieldTokMatches t c && matchToks ts cs
  | _, _ => false

/-- `new RegExp('^' + field + '$', 'i').test(key)`. -/
def fieldPatternTest (field key : String) : Bool :=
  matchToks (compileFieldPattern field) key.data

/-! ## The DataMasker class -/

/-- State of a `DataMasker` instance: the five properties of its resolved
`Required<MaskingConfig>` plus `sensitiveFieldPatterns`.  The class stores
the patterns as compiled `RegExp` objects; here the list keeps their source
field names and `isSensitiveField` applies `fieldPatternTest` to them, which
is the same test. -/
structure DataMasker where
  enabled : Bool
  defaultMask : String
  rules : List MaskingRule
  sensitiveFields : List String
  sensitiveFieldPatterns : List String
  customMasker : Option (String → JsValue → JsValue)

/-- Constructor arguments: `MaskingConfig` with every property optional. -/
structure MaskingConfig where
  enabled : Option Bool := none
  defaultMask : Option String := none
  rules : Option (List MaskingRule) := none
  sensitiveFields : Option (List String) := none
  customMasker : Option (String → JsValue → JsValue) := none

/-- The 26 sensitive-field names the constructor bakes in by default. -/
def defaultSensitiveFields : List String :=
  ["password", "secret", "token", "apiKey", "api_key", "accessToken",
   "access_token", "refreshToken", "refresh_token", "sessionToken",
   "session_token", "privateKey", "private_key", "creditCard", "credit_card",
   "ssn", "social_security", "email", "phone", "phoneNumber", "phone_number",
   "address", "zipCode", "zip_code", "postalCode", "postal_code"]

/-- The constructor `new DataMasker(config)`: spread the defaults, let the
caller's properties win, then compile one `^field$` pattern per sensitive
field. -/
def DataMasker.new (config : MaskingConfig) : DataMasker :=
  let fields := config.sensitiveFields.getD defaultSensitiveFields
  { enabled := config.enabled.getD true
    defaultMask := config.defaultMask.getD "***"
    rules := config.rules.getD []
    sensitiveFields := fields
    sensitiveFieldPatterns := fields
    customMasker := config.customMasker }

/-- A masker built with the default configuration, `new DataMasker()`. -/
def defaultMasker : DataMasker := DataMasker.new {}

/-- Method `isSensitiveField`: some compiled pattern accepts the key. -/
def DataMasker.isSensitiveField (m : DataMasker) (key : String) : Bool :=
  m.sensitiveFieldPatterns.any (fun f => fieldPatternTest f key)

/-- Method `findMatchingRule`: the first rule, in insertion order, whose
matcher accepts the key — exact matchers compare lowercased, regex matchers
run their `test`. -/
def DataMasker.findMatchingRule (m : DataMasker) (key : String) : Option MaskingRule :=
  m.rules.find? (fun rule =>
    match rule.field with
    | .exact name => jsToLower key == jsToLower name
    | .pattern test => test key)

/-- Method `maskString`: the four global pattern substitutions, in the fixed
source order email, phone, credit card, SSN. -/
def DataMasker.maskString (m : DataMasker) (str : String) : String :=
  jsReplace ssnRegex (fun _ => m.defaultMask.data)
    (jsReplace creditCardRegex (fun cs => (partialMaskCreditCard m.defaultMask (String.mk cs)).data)
      (jsReplace phoneRegex (fun _ => m.defaultMask.data)
        (jsReplace emailRegex (fun cs => (partialMaskEmail m.defaultMask (String.mk cs)).data) str)))

mutual

/-- Method `maskData`: the entry point.  Disabled configuration, null and
undefined pass through; strings go to `maskString`; arrays map recursively;
objects — plain objects and `Date`s alike, both of `typeof` `"object"` — go
to the entry loop of `maskObject` over their own enumerable entries.  A
`Date` has no own enumerable entries, and `maskObject` applied to the empty
entry list answers the empty list by its first equation (see
`maskObject_of_date_entries`), so the `vDate` branch carries that result
inlined, which keeps the recursion structural. -/
def DataMasker.maskData (m : DataMasker) (data : JsValue) : JsValue :=
  if !m.enabled then data
  else
    match data with
    | .vNull => .vNull
    | .vUndefined => .vUndefined
    | .vStr s => .vStr (m.maskString s)
    | .vArr items => .vArr (DataMasker.maskList m items)
    | .vObj obj => .vObj (DataMasker.maskObject m obj)
    | .vDate _ => .vObj []
    | .vBool b => .vBool b
    | .vNum n => .vNum n

/-- The `data.map(item => this.maskData(item))` of the array branch. -/
def DataMasker.maskList (m : DataMasker) : List JsValue → List JsValue
  | [] => []
  | item :: items => DataMasker.maskData m item :: DataMasker.maskList m items

/-- Method `maskObject`: the loop over `Object.entries(obj)`.  Per entry: a
configured custom masker answers outright; else the first matching rule is
applied; else a sensitive key has its value masked; else the engine recurses
into the value. -/
def DataMasker.maskObject (m : DataMasker) : List (String × JsValue) → List (String × JsValue)
  | [] => []
  | (key, value) :: rest =>
    (key,
      match m.customMasker with
      | some f => f key value
      | none =>
        match DataMasker.findMatchingRule m key with
        | some rule => applyMaskingRule m.defaultMask value rule
        | none =>
          if DataMasker.isSensitiveField m key then maskValue value m.defaultMask
          else DataMasker.maskData m value) :: DataMasker.maskObject m rest

end

/-! ## Runtime configuration mutators -/

/-- Method `addSensitiveField`: a no-op when the raw name is already stored
(case-sensitive `includes`); otherwise push the name and its compiled
pattern. -/
def DataMasker.addSensitiveField (m : DataMasker) (field : String) : DataMasker :=
  if m.sensitiveFields.contains field then m
  else
    { m with
      sensitiveFields := m.sensitiveFields ++ [field]
      sensitiveFieldPatterns := m.sensitiveFieldPatterns ++ [field] }

/-- Method `removeSensitiveField`: when the raw name is stored, splice out
its first occurrence and recompile every pattern from the remaining names. -/
def DataMasker.removeSensitiveField (m : DataMasker) (field : String) : DataMasker :=
  if m.sensitiveFields.contains field then
    { m with
      sensitiveFields := m.sensitiveFields.erase field
      sensitiveFieldPatterns := m.sensitiveFields.erase field }
  else m

/-- Method `addMaskingRule`: push the rule. -/
def DataMasker.addMaskingRule (m : DataMasker) (rule : MaskingRule) : DataMasker :=
  { m with rules := m.rules ++ [rule] }

/-- Method `setCustomMasker`: install or replace the custom masker. -/
def DataMasker.setCustomMasker (m : DataMasker) (f : String → JsValue → JsValue) : DataMasker :=
  { m with customMasker := some f }

end HermesTrace

namespace HermesTrace

/-- The entry loop of `maskObject` on the (empty) own enumerable entry list
of a `Date` produces the empty entry list — the step inlined in the `vDate`
branch of `maskData`. -/
theorem maskObject_of_date_entries (m : DataMasker) : DataMasker.maskObject m [] = [] := rfl

end HermesTrace

namespace HermesTrace

/-! ## Sanity checks of the embedding against the engine's behaviour -/

example : defaultMasker.maskString "john.doe@example.com" = "j***e@example.com" := by decide
example : defaultMasker.maskString "Call me at (555) 123-4567" = "Call me at ***" := by decide
example : defaultMasker.maskString "SSN: 123-45-6789" = "SSN: ***" := by decide
example : defaultMasker.maskString "Card number: 4532-1234-5678-9012" = "Card number: 4***-5***" := by decide
example : defaultMasker.maskString "hello world" = "hello world" := by decide
example :
    defaultMasker.maskData (.vObj [("username", .vStr "john_doe"), ("password", .vStr "secret123")]) =
      .vObj [("username", .vStr "john_doe"), ("password", .vStr "***")] := rfl

/-! ## Claim C7 — disabled masking is the identity -/

/-- Claim C7: for every input value, `maskData` under a configuration whose
enabled flag is false returns the input unchanged — the identity, with no
transformation of strings, sequences, or mappings. -/
theorem maskData_disabled_identity (m : DataMasker) (v : JsValue) (h : m.enabled = false) :
    m.maskData v = v := by
  cases v <;> simp [DataMasker.maskData, h]

/-- Witness for C7 at a concrete disabled masker and payload. -/
theorem maskData_disabled_identity_witness :
    (DataMasker.new { enabled := some false }).enabled = false ∧
      (DataMasker.new { enabled := some false }).maskData
          (.vObj [("password", .vStr "secret123")]) =
        .vObj [("password", .vStr "secret123")] :=
  ⟨rfl, maskData_disabled_identity (DataMasker.new { enabled := some false }) _ rfl⟩

/-! ## Claim C9 — length-preserving masking -/

/-- Repeating a string `n` times multiplies its length by `n`. -/
theorem jsRepeat_length (s : String) (n : Nat) : (jsRepeat s n).length = n * s.length := by
  induction n with
  | zero => simp [jsRepeat]
  | succ k ih => simp [jsRepeat, String.length_append, ih, Nat.succ_mul, Nat.add_comm]

/-- Claim C9: `preserveLengthMask` returns the token's character repeated to
exactly the original string's length when the token has exactly one
character (so the result's length is the original's), and the token itself
verbatim for a token of any other length; `preserveLengthMask` of
`"sensitive data"` with `"*"` is 14 asterisks. -/
theorem preserveLengthMask_spec (value msk : String) :
    (msk.length = 1 →
      preserveLengthMask value msk = jsRepeat msk value.length ∧
        (preserveLengthMask value msk).length = value.length) ∧
    (msk.length ≠ 1 → preserveLengthMask value msk = msk) ∧
    preserveLengthMask "sensitive data" "*" = "**************" := by
  refine ⟨fun h => ⟨?_, ?_⟩, fun h => ?_, by decide⟩
  · simp [preserveLengthMask, h]
  · simp [preserveLengthMask, h, jsRepeat_length]
  · simp [preserveLengthMask, h]

/-- Witness for C9 at the spec's own example. -/
theorem preserveLengthMask_spec_witness :
    "*".length = 1 ∧
      preserveLengthMask "sensitive data" "*" = jsRepeat "*" "sensitive data".length ∧
        (preserveLengthMask "sensitive data" "*").length = "sensitive data".length :=
  ⟨rfl, (preserveLengthMask_spec "sensitive data" "*").1 rfl⟩

/-! ## Claim C8 — partial masking -/

/-- Claim C8: `partialMask` falls back to length-preserving masking (with
`preserveLength`) or the bare token on strings of at most 4 characters; on
longer strings it keeps the first 2 and last 2 characters around a middle of
the token repeated once per hidden character (which fills the gap exactly
for one-character tokens) when `preserveLength` holds, and of the token used
once otherwise; `partialMask "sensitive" "*" true = "se*****ve"`. -/
theorem partialMask_spec (value msk : String) (preserveLength : Bool) :
    (value.length ≤ 4 →
      partialMask value msk preserveLength =
        if preserveLength then preserveLengthMask value msk else msk) ∧
    (4 < value.length →
      partialMask value msk preserveLength =
        String.mk (value.data.take 2) ++
          (if preserveLength then jsRepeat msk (value.length - 4) else msk) ++
          String.mk (value.data.drop (value.length - 2))) ∧
    partialMask "sensitive" "*" true = "se*****ve" := by
  refine ⟨fun h => ?_, fun h => ?_, by decide⟩
  · simp [partialMask, h]
  · rw [partialMask, if_neg (by omega)]

/-- Witness for C8 on a string longer than 4 characters. -/
theorem partialMask_spec_witness :
    4 < "sensitive".length ∧
      partialMask "sensitive" "*" true =
        String.mk ("sensitive".data.take 2) ++
          (if true then jsRepeat "*" ("sensitive".length - 4) else "*") ++
          String.mk ("sensitive".data.drop ("sensitive".length - 2)) :=
  ⟨by decide, (partialMask_spec "sensitive" "*" true).2.1 (by decide)⟩

/-! ## Claim C2 — non-string scalars -/

/-- Claim C2 counterexample: masking a `Date` does not return the same
`Date`; the `typeof` dispatch sends it through the object branch, which
rebuilds it from its (empty) own enumerable entries as an empty plain
mapping. -/
theorem maskData_date_changed :
    defaultMasker.maskData (.vDate 0) ≠ .vDate 0 := by
  have h : defaultMasker.maskData (.vDate 0) = .vObj [] := rfl
  rw [h]
  simp

/-- Claim C2 amended: with masking enabled, numbers and booleans (and null
and undefined) are returned unchanged, but a `Date` — an object with no own
enumerable entries — is converted to an empty mapping rather than passed
through; `maskData` is a total function of the embedded value, so masking
never raises. -/
theorem maskData_scalar_passthrough (m : DataMasker) (n : Int) (b : Bool) (t : Int)
    (h : m.enabled = true) :
    m.maskData (.vNum n) = .vNum n ∧ m.maskData (.vBool b) = .vBool b ∧
      m.maskData .vNull = .vNull ∧ m.maskData .vUndefined = .vUndefined ∧
      m.maskData (.vDate t) = .vObj [] := by
  refine ⟨?_, ?_, ?_, ?_, ?_⟩ <;> simp [DataMasker.maskData, h]

/-- Witness for C2's amended statement at the default masker. -/
theorem maskData_scalar_passthrough_witness :
    defaultMasker.enabled = true ∧
      (defaultMasker.maskData (.vNum 7) = .vNum 7 ∧
        defaultMasker.maskData (.vBool true) = .vBool true ∧
        defaultMasker.maskData .vNull = .vNull ∧
        defaultMasker.maskData .vUndefined = .vUndefined ∧
        defaultMasker.maskData (.vDate 0) = .vObj []) :=
  ⟨rfl, maskData_scalar_passthrough defaultMasker 7 true 0 rfl⟩

/-! ## Claim C6 — key set preservation -/

/-- The entry loop keeps every key: first components are unchanged. -/
theorem maskObject_keys (m : DataMasker) (kvs : List (String × JsValue)) :
    (m.maskObject kvs).map Prod.fst = kvs.map Prod.fst := by
  induction kvs with
  | nil => rfl
  | cons kv rest ih =>
    cases kv
    simp [DataMasker.maskObject, ih]

/-- Claim C6: with masking enabled, masking a mapping produces a mapping
whose key list is exactly the input's key list — no keys added, dropped, or
reordered, whichever per-key branch fires. -/
theorem maskData_preserves_keys (m : DataMasker) (kvs : List (String × JsValue))
    (h : m.enabled = true) :
    m.maskData (.vObj kvs) = .vObj (m.maskObject kvs) ∧
      (m.maskObject kvs).map Prod.fst = kvs.map Prod.fst :=
  ⟨by simp [DataMasker.maskData, h], maskObject_keys m kvs⟩

/-- Witness for C6 at the default masker and a two-key mapping. -/
theorem maskData_preserves_keys_witness :
    defaultMasker.enabled = true ∧
      (defaultMasker.maskData (.vObj [("password", .vStr "x"), ("name", .vNum 1)]) =
          .vObj (defaultMasker.maskObject [("password", .vStr "x"), ("name", .vNum 1)]) ∧
        (defaultMasker.maskObject [("password", .vStr "x"), ("name", .vNum 1)]).map Prod.fst =
          [("password", JsValue.vStr "x"), ("name", JsValue.vNum 1)].map Prod.fst) :=
  ⟨rfl, maskData_preserves_keys defaultMasker _ rfl⟩

end HermesTrace

namespace HermesTrace

/-! ## Claim C4 — per-key decision priority -/

/-- Specification-side per-key decision, phrased from the spec's priority
list: a configured custom masker answers verbatim with no recursion and no
rule or sensitivity check; else the first rule in insertion order whose
matcher matches the key (case-insensitive exact string, or regex test) is
applied with no recursion into the value; else a sensitive-field match masks
the value; else the engine recurses into the value. -/
def perKeyDecisionSpec (m : DataMasker) (key : String) (value : JsValue) : JsValue :=
  match m.customMasker with
  | some f => f key value
  | none =>
    match m.rules.find? (fun rule =>
        match rule.field with
        | .exact name => jsToLower key == jsToLower name
        | .pattern test => test key) with
    | some rule => applyMaskingRule m.defaultMask value rule
    | none =>
      if m.isSensitiveField key then maskValue value m.defaultMask
      else m.maskData value

/-- Claim C4: with masking enabled, each entry of a mapping is decided by
exactly the spec's priority order — custom masker first, then first matching
rule, then sensitive-field check, then recursion. -/
theorem maskObject_per_key_priority (m : DataMasker) (kvs : List (String × JsValue))
    (h : m.enabled = true) :
    m.maskData (.vObj kvs) =
      .vObj (kvs.map (fun kv => (kv.1, perKeyDecisionSpec m kv.1 kv.2))) := by
  have hloop : ∀ l : List (String × JsValue),
      m.maskObject l = l.map (fun kv => (kv.1, perKeyDecisionSpec m kv.1 kv.2)) := by
    intro l
    induction l with
    | nil => rfl
    | cons kv rest ih =>
      cases kv
      simp only [DataMasker.maskObject, List.map, ih]
      rfl
  simp [DataMasker.maskData, h, hloop]

/-- A masker with a rule on `password`, which also sits in the sensitive
set: used to witness that the rule wins. -/
def rulePasswordMasker : DataMasker :=
  (DataMasker.new {}).addMaskingRule { field := .exact "password", mask := some "[RULE]" }

/-- Witness for C4: the rule on `password` takes precedence over the
sensitive set (the key would otherwise be masked as `***`), and the map form
of the entry loop holds at a concrete mapping. -/
theorem maskObject_per_key_priority_witness :
    rulePasswordMasker.enabled = true ∧
      rulePasswordMasker.maskData (.vObj [("PASSWORD", .vStr "hunter2"), ("note", .vNum 3)]) =
        .vObj ([("PASSWORD", JsValue.vStr "hunter2"), ("note", JsValue.vNum 3)].map
          (fun kv => (kv.1, perKeyDecisionSpec rulePasswordMasker kv.1 kv.2))) :=
  ⟨rfl, maskObject_per_key_priority rulePasswordMasker _ rfl⟩

example :
    rulePasswordMasker.maskData (.vObj [("PASSWORD", .vStr "hunter2")]) =
      .vObj [("PASSWORD", .vStr "[RULE]")] := rfl

/-! ## Claim C3 — the getMaskingConfig snapshot -/

/-- Mutation of the snapshot returned by `getMaskingConfig`, modelled by its
effect on the masker's state.  `getMaskingConfig` answers the shallow spread
copy of `this.config`: a fresh top-level object whose `rules` and
`sensitiveFields` properties still reference the masker's own arrays.
Pushing a rule through the snapshot therefore lands in the masker's live
rule list. -/
def DataMasker.snapshotPushRule (m : DataMasker) (rule : MaskingRule) : DataMasker :=
  { m with rules := m.rules ++ [rule] }

/-- Pushing a name onto the snapshot's `sensitiveFields` array likewise
lands in the masker's stored array — but the separately stored compiled
`sensitiveFieldPatterns` list is not touched. -/
def DataMasker.snapshotPushSensitiveField (m : DataMasker) (field : String) : DataMasker :=
  { m with sensitiveFields := m.sensitiveFields ++ [field] }

/-- Overwriting a top-level property of the snapshot (`enabled`,
`defaultMask`, ...) writes only to the fresh copy; the masker keeps its own
slots. -/
def DataMasker.snapshotSetTopLevel (m : DataMasker) (_enabled : Bool) (_mask : String) :
    DataMasker :=
  m

mutual

/-- Masking never reads the raw `sensitiveFields` list (decisions go through
`sensitiveFieldPatterns`), so changing that list alone changes no result. -/
theorem maskData_ignores_sensitiveFields (m : DataMasker) (fs : List String) (v : JsValue) :
    DataMasker.maskData { m with sensitiveFields := fs } v = DataMasker.maskData m v := by
  cases v with
  | vArr items => simp [DataMasker.maskData, maskList_ignores_sensitiveFields m fs items]
  | vObj obj => simp [DataMasker.maskData, maskObject_ignores_sensitiveFields m fs obj]
  | vNull => rfl
  | vUndefined => rfl
  | vBool b => rfl
  | vNum n => rfl
  | vDate t => rfl
  | vStr s => rfl

theorem maskList_ignores_sensitiveFields (m : DataMasker) (fs : List String) :
    ∀ items : List JsValue,
      DataMasker.maskList { m with sensitiveFields := fs } items = DataMasker.maskList m items
  | [] => rfl
  | item :: items => by
    simp [DataMasker.maskList, maskData_ignores_sensitiveFields m fs item,
      maskList_ignores_sensitiveFields m fs items]

theorem maskObject_ignores_sensitiveFields (m : DataMasker) (fs : List String) :
    ∀ kvs : List (String × JsValue),
      DataMasker.maskObject { m with sensitiveFields := fs } kvs = DataMasker.maskObject m kvs
  | [] => rfl
  | (key, value) :: rest => by
    simp only [DataMasker.maskObject, maskObject_ignores_sensitiveFields m fs rest]
    rw [maskData_ignores_sensitiveFields m fs value]
    rfl

end

/-- Claim C3 counterexample: the snapshot is not a defensive copy — pushing
a rule through it changes the result of a subsequent `maskData` call. -/
theorem snapshot_rule_push_changes_masking :
    (defaultMasker.snapshotPushRule { field := .exact "username", mask := some "[R]" }).maskData
        (.vObj [("username", .vStr "jo")]) ≠
      defaultMasker.maskData (.vObj [("username", .vStr "jo")]) := by
  have h1 :
      (defaultMasker.snapshotPushRule { field := .exact "username", mask := some "[R]" }).maskData
          (.vObj [("username", .vStr "jo")]) = .vObj [("username", .vStr "[R]")] := rfl
  have h2 :
      defaultMasker.maskData (.vObj [("username", .vStr "jo")]) =
        .vObj [("username", .vStr "jo")] := rfl
  rw [h1, h2]
  simp

/-- Claim C3 amended: the snapshot is a fresh top-level object — overwriting
its scalar properties leaves the masker untouched, and pushing onto its
`sensitiveFields` array changes neither the sensitivity test nor any
`maskData` result (the compiled patterns are stored separately) — but its
`rules` array is the masker's own, so a rule pushed through the snapshot
enters the masker's live rule list (and, per the counterexample, changes
subsequent masking). -/
theorem snapshot_shallow_copy_effects (m : DataMasker) (e : Bool) (d : String)
    (f key : String) (v : JsValue) (rule : MaskingRule) :
    m.snapshotSetTopLevel e d = m ∧
      (m.snapshotPushSensitiveField f).maskData v = m.maskData v ∧
      (m.snapshotPushSensitiveField f).isSensitiveField key = m.isSensitiveField key ∧
      (m.snapshotPushRule rule).rules = m.rules ++ [rule] :=
  ⟨rfl, maskData_ignores_sensitiveFields m _ v, rfl, rfl⟩

end HermesTrace

namespace HermesTrace

/-! ## Claim C10 — scope of the custom masker -/

mutual

/-- Does the value contain no mapping anywhere (a `Date`, whose entry list
is empty, counts as mapping-free)? -/
def noMapping : JsValue → Bool
  | .vObj _ => false
  | .vArr items => noMappingList items
  | _ => true

def noMappingList : List JsValue → Bool
  | [] => true
  | item :: items => noMapping item && noMappingList items

end

mutual

/-- On mapping-free values the custom masker is never consulted, so removing
it changes nothing. -/
theorem maskData_no_custom (m : DataMasker) (v : JsValue) (h : noMapping v = true) :
    DataMasker.maskData { m with customMasker := none } v = DataMasker.maskData m v := by
  cases v with
  | vArr items => simp [DataMasker.maskData, maskList_no_custom m items (by simpa [noMapping] using h)]
  | vObj obj => simp [noMapping] at h
  | vNull => rfl
  | vUndefined => rfl
  | vBool b => rfl
  | vNum n => rfl
  | vDate t => rfl
  | vStr s => rfl

theorem maskList_no_custom (m : DataMasker) :
    ∀ items : List JsValue, noMappingList items = true →
      DataMasker.maskList { m with customMasker := none } items = DataMasker.maskList m items
  | [], _ => rfl
  | item :: items, h => by
    rw [noMappingList, Bool.and_eq_true] at h
    simp [DataMasker.maskList, maskData_no_custom m item h.1, maskList_no_custom m items h.2]

end

/-- A masker whose custom masker sends every entry to the string `X`. -/
def customXMasker : DataMasker :=
  (DataMasker.new {}).setCustomMasker (fun _ _ => .vStr "X")

/-- Claim C10 counterexample: an array is not a mapping, yet `maskData` on
it differs with and without the custom masker as soon as some element is a
mapping — the custom masker fires on the nested mapping's entries. -/
theorem customMasker_reaches_nested_mapping :
    customXMasker.maskData (.vArr [.vObj [("a", .vNum 1)]]) ≠
      ({ customXMasker with customMasker := none }).maskData (.vArr [.vObj [("a", .vNum 1)]]) := by
  have h1 :
      customXMasker.maskData (.vArr [.vObj [("a", .vNum 1)]]) =
        .vArr [.vObj [("a", .vStr "X")]] := rfl
  have h2 :
      ({ customXMasker with customMasker := none }).maskData (.vArr [.vObj [("a", .vNum 1)]]) =
        .vArr [.vObj [("a", .vNum 1)]] := rfl
  rw [h1, h2]
  simp

/-- Claim C10 amended: the custom masker is consulted only while traversing
mapping entries; on every value containing no mapping — in particular every
top-level string — the result does not depend on the configured custom
masker, and an enabled masker subjects a top-level string to the full
string-pattern pipeline regardless of it. -/
theorem customMasker_only_for_mapping_entries (m : DataMasker) (v : JsValue) (s : String)
    (hv : noMapping v = true) :
    DataMasker.maskData { m with customMasker := none } v = m.maskData v ∧
      (m.enabled = true → m.maskData (.vStr s) = .vStr (m.maskString s)) :=
  ⟨maskData_no_custom m v hv, fun he => by simp [DataMasker.maskData, he]⟩

/-- Witness for C10's amended statement: a mapping-free array of strings and
scalars masks identically without the custom masker. -/
theorem customMasker_only_for_mapping_entries_witness :
    noMapping (.vArr [.vStr "a@b.com", .vNum 1]) = true ∧
      (DataMasker.maskData { customXMasker with customMasker := none }
          (.vArr [.vStr "a@b.com", .vNum 1]) =
        customXMasker.maskData (.vArr [.vStr "a@b.com", .vNum 1]) ∧
      (customXMasker.enabled = true →
        customXMasker.maskData (.vStr "a@b.com") = .vStr (customXMasker.maskString "a@b.com"))) :=
  ⟨rfl, customMasker_only_for_mapping_entries customXMasker _ "a@b.com" rfl⟩

end HermesTrace

namespace HermesTrace

/-! ## Claim C5 — sensitive-field matching -/

/-- Masker states reached from the default constructor by any sequence of
`addSensitiveField` and `removeSensitiveField` calls. -/
inductive ReachableMasker : DataMasker → Prop where
  | base : ReachableMasker defaultMasker
  | addField (st : DataMasker) (f : String) :
      ReachableMasker st → ReachableMasker (st.addSensitiveField f)
  | removeField (st : DataMasker) (f : String) :
      ReachableMasker st → ReachableMasker (st.removeSensitiveField f)

/-- Along `addSensitiveField`/`removeSensitiveField`, the compiled pattern
list always mirrors the field list (the constructor compiles all fields, the
mutators keep both in step). -/
theorem reachable_patterns_eq (st : DataMasker) (h : ReachableMasker st) :
    st.sensitiveFieldPatterns = st.sensitiveFields := by
  induction h with
  | base => rfl
  | addField st f _ ih =>
    unfold DataMasker.addSensitiveField
    split
    · exact ih
    · simp [ih]
  | removeField st f _ ih =>
    unfold DataMasker.removeSensitiveField
    split
    · rfl
    · exact ih

/-- Characters of a field name that the `RegExp` constructor reads as
themselves (no regular-expression metacharacter among them). -/
def isPlainFieldChar (c : Char) : Bool :=
  !(c = '.' || c = '*' || c = '+' || c = '?' || c = '^' || c = '$' || c = '(' || c = ')' ||
    c = '[' || c = ']' || c = '\x7b' || c = '\x7d' || c = '|' || c = '\\')

/-- A field name every character of which is plain. -/
def plainFieldName (f : String) : Bool := f.data.all isPlainFieldChar

/-- Compiling a plain field name produces literal tokens only. -/
theorem compileTokens_plain :
    ∀ cs : List Char, cs.all isPlainFieldChar = true →
      cs.map (fun c => if c = '.' then FieldTok.fdot else FieldTok.flit c) = cs.map FieldTok.flit
  | [], _ => rfl
  | c :: cs, h => by
    rw [List.all_cons, Bool.and_eq_true] at h
    have hc : ¬ c = '.' := by
      intro hc
      rw [hc] at h
      exact absurd h.1 (by decide)
    simp only [List.map, if_neg hc]
    rw [compileTokens_plain cs h.2]

/-- A literal-token pattern accepts exactly the character lists with the
same lowercase image. -/
theorem matchToks_flit :
    ∀ fs cs : List Char,
      (matchToks (fs.map FieldTok.flit) cs = true ↔
        cs.map Char.toLower = fs.map Char.toLower)
  | [], [] => by simp [matchToks]
  | [], _ :: _ => by simp [matchToks]
  | _ :: _, [] => by simp [matchToks]
  | f :: fs, c :: cs => by
    simp only [List.map, matchToks, Bool.and_eq_true, fieldTokMatches, beq_iff_eq,
      List.cons.injEq]
    rw [matchToks_flit fs cs]
    constructor
    · rintro ⟨h1, h2⟩
      exact ⟨h1.symm, h2⟩
    · rintro ⟨h1, h2⟩
      exact ⟨h1.symm, h2⟩

/-- For a plain field name, the compiled `^field$` pattern with the `i` flag
tests exactly case-insensitive string equality. -/
theorem fieldPatternTest_plain (f key : String) (h : plainFieldName f = true) :
    (fieldPatternTest f key = true ↔ jsToLower key = jsToLower f) := by
  unfold plainFieldName at h
  unfold fieldPatternTest compileFieldPattern jsToLower
  rw [compileTokens_plain f.data h, matchToks_flit f.data key.data]
  exact ⟨fun h2 => congrArg String.mk h2, fun h2 => congrArg String.data h2⟩

/-- Claim C5 counterexample: after `addSensitiveField "a.b"` — a reachable
state — the key `"aXb"` is judged sensitive although its lowercase form
equals no stored field name's lowercase form: the unescaped `.` of the field
name acts as a regular-expression wildcard in `^a.b$`. -/
theorem isSensitiveField_metachar_cex :
    ReachableMasker (defaultMasker.addSensitiveField "a.b") ∧
      (defaultMasker.addSensitiveField "a.b").isSensitiveField "aXb" = true ∧
      ∀ f ∈ (defaultMasker.addSensitiveField "a.b").sensitiveFields,
        jsToLower "aXb" ≠ jsToLower f :=
  ⟨ReachableMasker.addField _ _ ReachableMasker.base, by decide, by decide⟩

/-- Claim C5 amended: in every reachable state whose stored field names
contain no regular-expression metacharacter (true of the 26 defaults and of
ordinary identifiers), a key is judged sensitive exactly when its lowercase
form equals the lowercase form of some stored field name; for other names
the unescaped compiled pattern `^field$` decides, and may accept more keys. -/
theorem isSensitiveField_exact_ci (st : DataMasker) (key : String)
    (hr : ReachableMasker st)
    (hp : ∀ f ∈ st.sensitiveFields, plainFieldName f = true) :
    (st.isSensitiveField key = true ↔
      ∃ f ∈ st.sensitiveFields, jsToLower key = jsToLower f) := by
  unfold DataMasker.isSensitiveField
  rw [reachable_patterns_eq st hr, List.any_eq_true]
  constructor
  · rintro ⟨f, hf, ht⟩
    exact ⟨f, hf, (fieldPatternTest_plain f key (hp f hf)).mp ht⟩
  · rintro ⟨f, hf, he⟩
    exact ⟨f, hf, (fieldPatternTest_plain f key (hp f hf)).mpr he⟩

/-- Witness for C5's amended statement: the default masker is reachable, its
26 field names are plain, and `PASSWORD` is sensitive because `password` is
stored. -/
theorem isSensitiveField_exact_ci_witness :
    ReachableMasker defaultMasker ∧
      (∀ f ∈ defaultMasker.sensitiveFields, plainFieldName f = true) ∧
      defaultMasker.isSensitiveField "PASSWORD" = true :=
  ⟨ReachableMasker.base, by decide,
    (isSensitiveField_exact_ci defaultMasker "PASSWORD" ReachableMasker.base (by decide)).mpr
      ⟨"password", by decide, by decide⟩⟩

end HermesTrace

namespace HermesTrace

/-! ## Claim C1 — credit-card masking through the pipeline -/

/-- Claim C1 counterexample: masking the plain string `"4532123456789012"`
with the default configuration does not produce the token repeated 12 times
before `"9012"` — the phone substitution runs first and swallows the first
ten digits, so no credit-card match survives to the credit-card stage. -/
theorem maskData_card16_not_claimed :
    defaultMasker.maskData (.vStr "4532123456789012") ≠
      .vStr (jsRepeat "***" 12 ++ "9012") := by
  have h : defaultMasker.maskData (.vStr "4532123456789012") = .vStr "***789012" := rfl
  rw [h]
  intro hc
  exact absurd (JsValue.vStr.inj hc) (by decide)

/-- Claim C1 amended: `maskData` of the plain 16-digit card under the
default configuration yields `"***789012"` (the phone pattern, substituted
before the credit-card pattern, matches the first ten digits and is replaced
by the bare token; the remainder matches nothing); the substitutions run in
the fixed order email, phone, credit card, SSN, the credit-card substitution
thus seeing only what the first two left; and every credit-card match so
reached is replaced by `partialMaskCreditCard`, which strips the non-digits,
answers the bare token below 8 digits, and otherwise prefixes the last four
digits with the token repeated once per remaining digit. -/
theorem creditCard_masking_spec (card : String) :
    defaultMasker.maskData (.vStr "4532123456789012") = .vStr "***789012" ∧
      (∀ (m : DataMasker) (s : String), m.maskString s =
        jsReplace ssnRegex (fun _ => m.defaultMask.data)
          (jsReplace creditCardRegex
            (fun cs => (partialMaskCreditCard m.defaultMask (String.mk cs)).data)
            (jsReplace phoneRegex (fun _ => m.defaultMask.data)
              (jsReplace emailRegex
                (fun cs => (partialMaskEmail m.defaultMask (String.mk cs)).data) s)))) ∧
      ((card.data.filter isDigitChar).length < 8 →
        partialMaskCreditCard "***" card = "***") ∧
      (8 ≤ (card.data.filter isDigitChar).length →
        partialMaskCreditCard "***" card =
          jsRepeat "***" ((card.data.filter isDigitChar).length - 4) ++
            String.mk ((card.data.filter isDigitChar).drop
              ((card.data.filter isDigitChar).length - 4))) := by
  refine ⟨rfl, fun m s => rfl, fun h => ?_, fun h => ?_⟩
  · simp [partialMaskCreditCard, h]
  · rw [partialMaskCreditCard]
    simp only [if_neg (by omega : ¬ (card.data.filter isDigitChar).length < 8)]

/-- Witness for C1's amended statement on a dashed card that reaches
`partialMaskCreditCard` with 16 digits. -/
theorem creditCard_masking_spec_witness :
    8 ≤ ("4532-1234-5678-9012".data.filter isDigitChar).length ∧
      partialMaskCreditCard "***" "4532-1234-5678-9012" =
        jsRepeat "***" (("4532-1234-5678-9012".data.filter isDigitChar).length - 4) ++
          String.mk (("4532-1234-5678-9012".data.filter isDigitChar).drop
            (("4532-1234-5678-9012".data.filter isDigitChar).length - 4)) :=
  ⟨by decide, (creditCard_masking_spec "4532-1234-5678-9012").2.2.2 (by decide)⟩

example : partialMaskCreditCard "***" "4532123456789012" = jsRepeat "***" 12 ++ "9012" := by decide

end HermesTrace
